import Mathlib

/-!
Shallow embedding of the open-positions summary aggregator of
`src/app/services.py`: the helpers `_get_copier_open_count` and
`get_open_positions_summary_for_profile`, together with the process-wide
TTL cache `_open_positions_cache` that the latter maintains.

Modelling conventions:
* Python dicts (insertion ordered, unique keys) are association lists;
  `m[k] = v` replaces in place when the key exists, else appends.
* The upstream HTTP world is an oracle `Env` giving, per copier id, the
  outcome of the single fetch issued for it during one aggregation call.
* `time.time()` floats are modelled as integers; only ordering and
  subtraction of timestamps matter to the code.
* The aggregator call is a pure function from (cache, now, oracle, inputs)
  to (returned summary, new cache, list of ids actually fetched).
-/

namespace SignalWeb

/-- A Python value that may sit in an account record's `id` field; `pyStr`
models Python's `str(...)` applied to it. -/
inductive PyVal where
  | none
  | str (s : String)
  | int (n : Int)
deriving DecidableEq

/-- Python `str(v)`; in particular `str(None)` is the text `"None"`. -/
def pyStr : PyVal → String
  | .none => "None"
  | .str s => s
  | .int n => toString n

/-- An account record from the profile's accounts list, as read by
`get_open_positions_summary_for_profile`. Each field is `Option` to model
presence or absence of the corresponding key in the Python dict. -/
structure Copier where
  id : Option PyVal
  name : Option String
  server : Option String
  username : Option String
deriving DecidableEq

/-- `str(copier.get('id', ''))`: empty string when the key is absent,
otherwise the stringified value. -/
def Copier.idStr (c : Copier) : String :=
  match c.id with
  | Option.none => ""
  | some v => pyStr v

/-- The per-account record stored in `copier_info_map`. -/
structure CopierInfo where
  copier_id : String
  name : String
  server_code : String
  username : String
deriving DecidableEq

/-- The info record built for one account, with the Python defaults. -/
def Copier.info (c : Copier) : CopierInfo :=
  { copier_id := c.idStr
    name := c.name.getD "Unknown"
    server_code := c.server.getD "N/A"
    username := c.username.getD "N/A" }

/-- What the response body of the positions endpoint parses to: a JSON
list of a given length, some non-list JSON value, or a body on which
`resp.json()` raises. -/
inductive Body where
  | jsonList (n : Nat)
  | jsonOther
  | malformed
deriving DecidableEq

/-- Outcome of the `requests.get` call inside `_get_copier_open_count`:
the call raises (timeout, connection error), or a response arrives with a
status code and a body. -/
inductive FetchResult where
  | exn
  | resp (status : Nat) (body : Body)
deriving DecidableEq

/-- `_get_copier_open_count`: a 200 response with a JSON list yields its
length; a 200 with a non-list payload yields 0; any other status yields
0; any exception (including one raised while parsing the body) is caught
and yields 0. -/
def getCopierOpenCount : FetchResult → Nat
  | .exn => 0
  | .resp status body =>
    if status = 200 then
      match body with
      | .jsonList n => n
      | .jsonOther => 0
      | .malformed => 0
    else 0

/-- Behaviour of the environment for one submitted worker: either the
future's `result()` raises (caught in the `as_completed` loop), or the
fetch completes with an outcome. -/
inductive FetchSpec where
  | workerRaise
  | outcome (r : FetchResult)
deriving DecidableEq

/-- The upstream oracle: outcome of the fetch issued for each copier id. -/
def Env := String → FetchSpec

/-- The count that lands in `copier_counts` for a copier id: the value
computed by `fetch_count`, or 0 when the future raised. -/
def countFor (env : Env) (cid : String) : Nat :=
  match env cid with
  | .workerRaise => 0
  | .outcome r => getCopierOpenCount r

/-- Python dict assignment `m[k] = v` on an insertion-ordered dict with
unique keys: replace the value in place when the key is present, else
append the new pair. -/
def pyDictSet : List (String × α) → String → α → List (String × α)
  | [], k, v => [(k, v)]
  | p :: m, k, v => if p.1 = k then (k, v) :: m else p :: pyDictSet m k v

/-- Python dict lookup: `m[k]` when `k in m`, else absence. -/
def pyDictGet : List (String × α) → String → Option α
  | [], _ => Option.none
  | p :: m, k => if p.1 = k then some p.2 else pyDictGet m k

/-- The pairs of a dict whose key differs from `k` (a proof device; the
code never deletes keys). -/
def eraseKey (k : String) : List (String × α) → List (String × α)
  | [] => []
  | p :: m => if p.1 = k then eraseKey k m else p :: eraseKey k m

/-- An element of the returned `copiers_with_positions` list: the copier
info merged with its open position count. -/
structure PositionEntry extends CopierInfo where
  open_count : Nat
deriving DecidableEq

/-- The summary dict returned by the aggregator. -/
structure Summary where
  copiers_with_positions : List PositionEntry
  total_copiers_with_positions : Nat
  total_open_positions : Nat
  cached : Bool
  timestamp : Int
deriving DecidableEq

/-- A slot of `_open_positions_cache`: generation timestamp and the
stored summary. -/
structure CacheEntry where
  timestamp : Int
  data : Summary
deriving DecidableEq

/-- The process-wide `_open_positions_cache` dict. -/
abbrev Cache := List (String × CacheEntry)

/-- Cache time-to-live in seconds, as in `services.py`. -/
def OPEN_POSITIONS_CACHE_TTL : Int := 15

/-- One iteration of the loop that fills `copier_info_map`: an account
whose stringified id is empty is skipped, the rest are stored keyed by
that id. -/
def processCopier (m : List (String × CopierInfo)) (c : Copier) :
    List (String × CopierInfo) :=
  if c.idStr = "" then m else pyDictSet m c.idStr c.info

/-- The `copier_info_map` built from the input accounts list. -/
def buildInfoMap (l : List Copier) : List (String × CopierInfo) :=
  l.foldl processCopier []

/-- The `copiers_with_positions` list before sorting: iterate the info
map in insertion order, keeping only accounts with a positive count. -/
def unsortedEntries (env : Env) (m : List (String × CopierInfo)) :
    List PositionEntry :=
  (m.filter (fun p => 0 < countFor env p.1)).map
    (fun p => ⟨p.2, countFor env p.1⟩)

/-- `total_open_positions`: the fetched counts summed over every account
in the info map, zero-count accounts included. -/
def totalOpen (env : Env) (m : List (String × CopierInfo)) : Nat :=
  (m.map (fun p => countFor env p.1)).sum

/-- The order used by `sort(key=lambda x: x['open_count'], reverse=True)`:
an entry precedes another when its count is at least as large. -/
def entryGE (a b : PositionEntry) : Prop := b.open_count ≤ a.open_count

instance : DecidableRel entryGE := fun _ _ => Nat.decLe _ _

instance : IsTotal PositionEntry entryGE :=
  ⟨fun a b => Nat.le_total b.open_count a.open_count⟩

instance : IsTrans PositionEntry entryGE :=
  ⟨fun _ _ _ h1 h2 => Nat.le_trans h2 h1⟩

/-- Python's `list.sort` with `reverse=True` is the stable descending
sort, i.e. the insertion sort by `entryGE`. -/
def sortEntries (l : List PositionEntry) : List PositionEntry :=
  List.insertionSort entryGE l

/-- Result of one aggregator call: the returned summary, the cache after
the call, and the ids for which an upstream fetch was issued. -/
structure CallResult where
  result : Summary
  cache : Cache
  fetched : List String
deriving DecidableEq

/-- The cache-miss path of `get_open_positions_summary_for_profile`: the
empty-input early return, or the fan-out fetch, merge, sort and cache
store. -/
def freshPath (cache : Cache) (now : Int) (env : Env) (profile_id : String)
    (copiers_list : List Copier) : CallResult :=
  if copiers_list.isEmpty then
    let result : Summary := ⟨[], 0, 0, false, now⟩
    ⟨result, pyDictSet cache profile_id ⟨now, result⟩, []⟩
  else
    let m := buildInfoMap copiers_list
    let sorted := sortEntries (unsortedEntries env m)
    let result : Summary := ⟨sorted, sorted.length, totalOpen env m, false, now⟩
    ⟨result, pyDictSet cache profile_id ⟨now, result⟩, m.map Prod.fst⟩

/-- `get_open_positions_summary_for_profile`: return the cached summary,
flagged `cached = true`, while the entry is younger than the TTL;
otherwise recompute via `freshPath`. -/
def getOpenPositionsSummaryForProfile (cache : Cache) (now : Int)
    (env : Env) (profile_id : String) (copiers_list : List Copier) :
    CallResult :=
  match pyDictGet cache profile_id with
  | some entry =>
    if now - entry.timestamp < OPEN_POSITIONS_CACHE_TTL then
      ⟨{ entry.data with cached := true }, cache, []⟩
    else freshPath cache now env profile_id copiers_list
  | Option.none => freshPath cache now env profile_id copiers_list

/-- An oracle answering every fetch with a 200 JSON list of length
`f cid`. -/
def envOf (f : String → Nat) : Env :=
  fun cid => .outcome (.resp 200 (.jsonList (f cid)))

/-- A convenient account record with only the id set. -/
def mkCopier (i : PyVal) : Copier :=
  ⟨some i, Option.none, Option.none, Option.none⟩

example :
    (freshPath [] 0 (envOf fun _ => 2) "p" [mkCopier (.str "A")]).result.total_open_positions
      = 2 := by decide

example :
    (freshPath [] 0 (envOf fun cid => if cid = "A1" then 5 else if cid = "A2" then 5 else 0)
      "p" [mkCopier (.str "A1"), mkCopier (.str "A2"), mkCopier (.str "A3")]).result.total_open_positions = 10 := by
  decide

/-! ### Dictionary lemmas -/

theorem pyDictGet_pyDictSet_self (m : List (String × α)) (k : String) (v : α) :
    pyDictGet (pyDictSet m k v) k = some v := by
  induction m with
  | nil => simp [pyDictSet, pyDictGet]
  | cons p m ih =>
    by_cases h : p.1 = k
    · simp [pyDictSet, pyDictGet, h]
    · simp [pyDictSet, pyDictGet, h, ih]

theorem pyDictGet_pyDictSet_ne (m : List (String × α)) (k k' : String) (v : α)
    (h : k' ≠ k) : pyDictGet (pyDictSet m k v) k' = pyDictGet m k' := by
  have h2 : k ≠ k' := Ne.symm h
  induction m with
  | nil => simp [pyDictSet, pyDictGet, h2]
  | cons p m ih =>
    by_cases hp : p.1 = k
    · simp [pyDictSet, pyDictGet, hp, h2]
    · simp [pyDictSet, pyDictGet, hp, ih]

theorem pyDictGet_isSome_pyDictSet (m : List (String × α)) (k k' : String) (v : α)
    (h : (pyDictGet m k').isSome) : (pyDictGet (pyDictSet m k v) k').isSome := by
  by_cases hk : k' = k
  · subst hk; simp [pyDictGet_pyDictSet_self]
  · rw [pyDictGet_pyDictSet_ne m k k' v hk]; exact h

theorem eraseKey_pyDictSet_self (m : List (String × α)) (k : String) (v : α) :
    eraseKey k (pyDictSet m k v) = eraseKey k m := by
  induction m with
  | nil => simp [pyDictSet, eraseKey]
  | cons p m ih =>
    by_cases h : p.1 = k
    · simp [pyDictSet, eraseKey, h]
    · simp [pyDictSet, eraseKey, h, ih]

theorem eraseKey_pyDictSet_ne (m : List (String × α)) (k k' : String) (v : α)
    (h : k' ≠ k) : eraseKey k (pyDictSet m k' v) = pyDictSet (eraseKey k m) k' v := by
  have h2 : k ≠ k' := Ne.symm h
  induction m with
  | nil => simp [pyDictSet, eraseKey, h]
  | cons p m ih =>
    by_cases hp : p.1 = k'
    · have hpk : p.1 ≠ k := by rw [hp]; exact h
      simp [pyDictSet, eraseKey, hp, hpk, h2, h]
    · by_cases hpk : p.1 = k
      · simp [pyDictSet, eraseKey, hp, hpk, h2, ih]
      · simp [pyDictSet, eraseKey, hp, hpk, ih]

/-! ### Info-map lemmas -/

theorem eraseKey_processCopier (k : String) (m m' : List (String × CopierInfo))
    (c : Copier) (hm : eraseKey k m = eraseKey k m') :
    eraseKey k (processCopier m c) = eraseKey k (processCopier m' c) := by
  unfold processCopier
  by_cases h0 : c.idStr = ""
  · simp [h0, hm]
  · simp only [if_neg h0]
    by_cases hk : c.idStr = k
    · rw [hk, eraseKey_pyDictSet_self, eraseKey_pyDictSet_self, hm]
    · rw [eraseKey_pyDictSet_ne _ _ _ _ hk, eraseKey_pyDictSet_ne _ _ _ _ hk, hm]

theorem eraseKey_foldl (k : String) (l : List Copier)
    (m m' : List (String × CopierInfo)) (hm : eraseKey k m = eraseKey k m') :
    eraseKey k (l.foldl processCopier m) = eraseKey k (l.foldl processCopier m') := by
  induction l generalizing m m' with
  | nil => simpa using hm
  | cons c l ih => exact ih _ _ (eraseKey_processCopier k m m' c hm)

theorem eraseKey_buildInfoMap_middle (b : Copier) (l1 l2 : List Copier) :
    eraseKey b.idStr (buildInfoMap (l1 ++ b :: l2)) =
      eraseKey b.idStr (buildInfoMap (l1 ++ l2)) := by
  unfold buildInfoMap
  rw [List.foldl_append, List.foldl_append, List.foldl_cons]
  apply eraseKey_foldl
  unfold processCopier
  by_cases h0 : b.idStr = ""
  · simp [h0]
  · simp only [if_neg h0]
    exact eraseKey_pyDictSet_self _ _ _

theorem totalOpen_eraseKey (env : Env) (k : String) (hk : countFor env k = 0)
    (m : List (String × CopierInfo)) :
    totalOpen env m = totalOpen env (eraseKey k m) := by
  induction m with
  | nil => rfl
  | cons p m ih =>
    by_cases h : p.1 = k
    · simp only [totalOpen, eraseKey, if_pos h, List.map_cons, List.sum_cons] at ih ⊢
      rw [h, hk, ih, Nat.zero_add]
    · simp only [totalOpen, eraseKey, if_neg h, List.map_cons, List.sum_cons] at ih ⊢
      rw [ih]

theorem filter_pos_eraseKey (env : Env) (k : String) (hk : countFor env k = 0)
    (m : List (String × CopierInfo)) :
    m.filter (fun p => 0 < countFor env p.1) =
      (eraseKey k m).filter (fun p => 0 < countFor env p.1) := by
  induction m with
  | nil => rfl
  | cons p m ih =>
    by_cases h : p.1 = k
    · have hz : ¬ 0 < countFor env p.1 := by rw [h, hk]; exact Nat.lt_irrefl 0
      simp [eraseKey, h, List.filter_cons, hz, hk, ih]
    · simp [eraseKey, h, List.filter_cons, ih]

theorem unsortedEntries_middle (env : Env) (b : Copier) (l1 l2 : List Copier)
    (hb : countFor env b.idStr = 0) :
    unsortedEntries env (buildInfoMap (l1 ++ b :: l2)) =
      unsortedEntries env (buildInfoMap (l1 ++ l2)) := by
  unfold unsortedEntries
  rw [filter_pos_eraseKey env b.idStr hb,
    filter_pos_eraseKey env b.idStr hb (buildInfoMap (l1 ++ l2)),
    eraseKey_buildInfoMap_middle]

theorem totalOpen_middle (env : Env) (b : Copier) (l1 l2 : List Copier)
    (hb : countFor env b.idStr = 0) :
    totalOpen env (buildInfoMap (l1 ++ b :: l2)) =
      totalOpen env (buildInfoMap (l1 ++ l2)) := by
  rw [totalOpen_eraseKey env b.idStr hb,
    totalOpen_eraseKey env b.idStr hb (buildInfoMap (l1 ++ l2)),
    eraseKey_buildInfoMap_middle]

theorem freshPath_result_middle (cache : Cache) (now : Int) (env : Env)
    (pid : String) (b : Copier) (l1 l2 : List Copier)
    (hb : countFor env b.idStr = 0) :
    (freshPath cache now env pid (l1 ++ b :: l2)).result =
      (freshPath cache now env pid (l1 ++ l2)).result := by
  cases hE : (l1 ++ l2).isEmpty with
  | true =>
    have h1 : l1 = [] := by cases l1 <;> simp_all
    have h2 : l2 = [] := by cases l2 <;> simp_all
    subst h1; subst h2
    by_cases h0 : b.idStr = ""
    · simp [freshPath, buildInfoMap, processCopier, unsortedEntries, totalOpen,
        sortEntries, List.insertionSort, h0]
    · simp [freshPath, buildInfoMap, processCopier, unsortedEntries, totalOpen,
        sortEntries, List.insertionSort, pyDictSet, h0, hb]
  | false =>
    have hne : (l1 ++ b :: l2).isEmpty = false := by simp
    simp only [freshPath, hne, hE, Bool.false_eq_true, if_false]
    rw [unsortedEntries_middle env b l1 l2 hb, totalOpen_middle env b l1 l2 hb]

theorem buildInfoMap_middle_emptyId (b : Copier) (l1 l2 : List Copier)
    (h0 : b.idStr = "") :
    buildInfoMap (l1 ++ b :: l2) = buildInfoMap (l1 ++ l2) := by
  unfold buildInfoMap
  rw [List.foldl_append, List.foldl_append, List.foldl_cons]
  simp [processCopier, h0]

theorem freshPath_middle_emptyId (cache : Cache) (now : Int) (env : Env)
    (pid : String) (b : Copier) (l1 l2 : List Copier) (h0 : b.idStr = "") :
    freshPath cache now env pid (l1 ++ b :: l2) =
      freshPath cache now env pid (l1 ++ l2) := by
  cases hE : (l1 ++ l2).isEmpty with
  | true =>
    have h1 : l1 = [] := by cases l1 <;> simp_all
    have h2 : l2 = [] := by cases l2 <;> simp_all
    subst h1; subst h2
    simp [freshPath, buildInfoMap, processCopier, unsortedEntries, totalOpen,
      sortEntries, List.insertionSort, h0]
  | false =>
    have hne : (l1 ++ b :: l2).isEmpty = false := by simp
    simp only [freshPath, hne, hE, Bool.false_eq_true, if_false]
    rw [buildInfoMap_middle_emptyId b l1 l2 h0]

theorem mem_keys_pyDictSet (m : List (String × α)) (k0 k : String) (v : α)
    (h : k ∈ (pyDictSet m k0 v).map Prod.fst) : k ∈ m.map Prod.fst ∨ k = k0 := by
  induction m with
  | nil =>
    simp [pyDictSet] at h
    exact Or.inr h
  | cons p m ih =>
    by_cases hp : p.1 = k0
    · simp only [pyDictSet, if_pos hp, List.map_cons, List.mem_cons] at h
      rcases h with h | h
      · exact Or.inr h
      · exact Or.inl (by simp [h])
    · simp only [pyDictSet, if_neg hp, List.map_cons, List.mem_cons] at h
      rcases h with h | h
      · exact Or.inl (by simp [h])
      · rcases ih h with h2 | h2
        · exact Or.inl (by simp [h2])
        · exact Or.inr h2

theorem keys_ne_empty_foldl (l : List Copier) (m : List (String × CopierInfo))
    (hm : ∀ k ∈ m.map Prod.fst, k ≠ "") :
    ∀ k ∈ (l.foldl processCopier m).map Prod.fst, k ≠ "" := by
  induction l generalizing m with
  | nil => exact hm
  | cons c l ih =>
    refine ih (processCopier m c) ?_
    intro k hk
    unfold processCopier at hk
    by_cases h0 : c.idStr = ""
    · rw [if_pos h0] at hk; exact hm k hk
    · rw [if_neg h0] at hk
      rcases mem_keys_pyDictSet m c.idStr k c.info hk with h | h
      · exact hm k h
      · rw [h]; exact h0

theorem buildInfoMap_keys_ne_empty (l : List Copier) :
    ∀ k ∈ (buildInfoMap l).map Prod.fst, k ≠ "" :=
  keys_ne_empty_foldl l [] (by simp)

theorem mem_unsortedEntries_pos (env : Env) (m : List (String × CopierInfo))
    (e : PositionEntry) (he : e ∈ unsortedEntries env m) : 0 < e.open_count := by
  unfold unsortedEntries at he
  rcases List.mem_map.mp he with ⟨p, hp, rfl⟩
  have h2 := List.of_mem_filter hp
  simpa using h2

theorem mem_sortEntries_pos (env : Env) (m : List (String × CopierInfo))
    (e : PositionEntry) (he : e ∈ sortEntries (unsortedEntries env m)) :
    0 < e.open_count := by
  have h2 : e ∈ unsortedEntries env m :=
    (List.perm_insertionSort entryGE (unsortedEntries env m)).mem_iff.mp he
  exact mem_unsortedEntries_pos env m e h2

theorem freshPath_totals (cache : Cache) (now : Int) (env : Env) (pid : String)
    (l : List Copier) :
    (freshPath cache now env pid l).result.total_open_positions =
      ((freshPath cache now env pid l).fetched.map (countFor env)).sum ∧
    (freshPath cache now env pid l).result.total_copiers_with_positions =
      ((freshPath cache now env pid l).fetched.filter
        (fun cid => 0 < countFor env cid)).length := by
  cases hE : l.isEmpty with
  | true => simp [freshPath, hE]
  | false =>
    simp only [freshPath, hE, Bool.false_eq_true, if_false]
    constructor
    · simp only [totalOpen, List.map_map]
      rfl
    · rw [sortEntries, List.length_insertionSort]
      simp only [unsortedEntries, List.length_map, List.filter_map]
      rfl

theorem countFor_congr_result (env env2 : Env)
    (h : ∀ c, countFor env c = countFor env2 c) (cache : Cache) (now : Int)
    (pid : String) (l : List Copier) :
    getOpenPositionsSummaryForProfile cache now env pid l =
      getOpenPositionsSummaryForProfile cache now env2 pid l := by
  have hf : countFor env = countFor env2 := funext h
  unfold getOpenPositionsSummaryForProfile freshPath unsortedEntries totalOpen
  rw [hf]

/-! ### More facts about the fresh path -/

theorem freshPath_result_flags (cache : Cache) (now : Int) (env : Env)
    (pid : String) (l : List Copier) :
    (freshPath cache now env pid l).result.cached = false ∧
    (freshPath cache now env pid l).result.timestamp = now := by
  cases hE : l.isEmpty <;> simp [freshPath, hE]

theorem freshPath_cache_eq (cache : Cache) (now : Int) (env : Env)
    (pid : String) (l : List Copier) :
    (freshPath cache now env pid l).cache =
      pyDictSet cache pid ⟨now, (freshPath cache now env pid l).result⟩ := by
  cases hE : l.isEmpty <;> simp [freshPath, hE]

theorem freshPath_entries_pos (cache : Cache) (now : Int) (env : Env)
    (pid : String) (l : List Copier) :
    ∀ e ∈ (freshPath cache now env pid l).result.copiers_with_positions,
      0 < e.open_count := by
  intro e he
  cases hE : l.isEmpty with
  | true => simp [freshPath, hE] at he
  | false =>
    simp only [freshPath, hE, Bool.false_eq_true, if_false] at he
    exact mem_sortEntries_pos env _ e he

theorem freshPath_fetched_ne_empty (cache : Cache) (now : Int) (env : Env)
    (pid : String) (l : List Copier) :
    ∀ cid ∈ (freshPath cache now env pid l).fetched, cid ≠ "" := by
  intro cid h
  cases hE : l.isEmpty with
  | true => simp [freshPath, hE] at h
  | false =>
    simp only [freshPath, hE, Bool.false_eq_true, if_false] at h
    exact buildInfoMap_keys_ne_empty l cid h

theorem call_cases (cache : Cache) (now : Int) (env : Env) (pid : String)
    (l : List Copier) :
    ((getOpenPositionsSummaryForProfile cache now env pid l).cache = cache ∧
      (getOpenPositionsSummaryForProfile cache now env pid l).fetched = []) ∨
    getOpenPositionsSummaryForProfile cache now env pid l =
      freshPath cache now env pid l := by
  unfold getOpenPositionsSummaryForProfile
  cases h : pyDictGet cache pid with
  | none => exact Or.inr rfl
  | some e =>
    by_cases ht : now - e.timestamp < OPEN_POSITIONS_CACHE_TTL
    · exact Or.inl (by simp [ht])
    · exact Or.inr (by simp [ht])

/-! ### Interleaving model for concurrent calls

Python dict reads and single-key assignments are individually atomic
under the interpreter lock. A request thread that discovered a stale
entry performs, against the shared cache, a TTL read followed by one
dict assignment that stores its fully built summary. -/

/-- One atomic cache action of a request thread. -/
inductive ThreadAct where
  | read
  | write (e : CacheEntry)

/-- Effect of one atomic action on the shared cache (keyed at `pid`). -/
def applyAct (pid : String) (c : Cache) : ThreadAct → Cache
  | .read => c
  | .write e => pyDictSet c pid e

/-- Run a schedule of atomic actions against the cache. -/
def runActs (pid : String) (c : Cache) (l : List ThreadAct) : Cache :=
  l.foldl (applyAct pid) c

/-- All interleavings of two threads' action sequences. -/
inductive Interleave :
    List ThreadAct → List ThreadAct → List ThreadAct → Prop where
  | nil : Interleave [] [] []
  | left {x : ThreadAct} {xs ys zs : List ThreadAct} :
      Interleave xs ys zs → Interleave (x :: xs) ys (x :: zs)
  | right {y : ThreadAct} {xs ys zs : List ThreadAct} :
      Interleave xs ys zs → Interleave xs (y :: ys) (y :: zs)

/-- The cache actions of one aggregation call that saw a stale entry and
went on to store the summary it computed. -/
def staleCallActs (e : CacheEntry) : List ThreadAct :=
  [ThreadAct.read, ThreadAct.write e]

theorem interleave_two_stale_writes (c : Cache) (pid : String)
    (e1 e2 : CacheEntry) (zs : List ThreadAct)
    (h : Interleave (staleCallActs e1) (staleCallActs e2) zs) :
    pyDictGet (runActs pid c zs) pid = some e1 ∨
      pyDictGet (runActs pid c zs) pid = some e2 := by
  cases h with
  | left h1 =>
    cases h1 with
    | left h2 =>
      cases h2 with
      | right h3 =>
        cases h3 with
        | right h4 =>
          cases h4 with
          | nil =>
            exact Or.inr (by
              simp [runActs, applyAct, pyDictGet_pyDictSet_self])
    | right h2 =>
      cases h2 with
      | left h3 =>
        cases h3 with
        | right h4 =>
          cases h4 with
          | nil =>
            exact Or.inr (by
              simp [runActs, applyAct, pyDictGet_pyDictSet_self])
      | right h3 =>
        cases h3 with
        | left h4 =>
          cases h4 with
          | nil =>
            exact Or.inl (by
              simp [runActs, applyAct, pyDictGet_pyDictSet_self])
  | right h1 =>
    cases h1 with
    | left h2 =>
      cases h2 with
      | left h3 =>
        cases h3 with
        | right h4 =>
          cases h4 with
          | nil =>
            exact Or.inr (by
              simp [runActs, applyAct, pyDictGet_pyDictSet_self])
      | right h3 =>
        cases h3 with
        | left h4 =>
          cases h4 with
          | nil =>
            exact Or.inl (by
              simp [runActs, applyAct, pyDictGet_pyDictSet_self])
    | right h2 =>
      cases h2 with
      | left h3 =>
        cases h3 with
        | left h4 =>
          cases h4 with
          | nil =>
            exact Or.inl (by
              simp [runActs, applyAct, pyDictGet_pyDictSet_self])

/-! ### Failure characterization and sample data -/

/-- The per-account failure modes listed for the fetch: a worker
exception, a request exception (timeout, network error), a non-200
status, or a 200 whose payload is not a list (or does not parse). -/
def fetchFails : FetchSpec → Bool
  | .workerRaise => true
  | .outcome .exn => true
  | .outcome (.resp _ .jsonOther) => true
  | .outcome (.resp _ .malformed) => true
  | .outcome (.resp status (.jsonList _)) => status != 200

theorem countFor_eq_zero_of_fails (env : Env) (cid : String)
    (h : fetchFails (env cid) = true) : countFor env cid = 0 := by
  unfold countFor
  cases henv : env cid with
  | workerRaise => rfl
  | outcome r =>
    rw [henv] at h
    cases r with
    | exn => rfl
    | resp st b =>
      cases b with
      | jsonList n =>
        simp only [fetchFails, bne_iff_ne] at h
        simp [getCopierOpenCount, h]
      | jsonOther => simp [getCopierOpenCount]
      | malformed => simp [getCopierOpenCount]

/-- Oracle that times out every fetch. -/
def envTimeout : Env := fun _ => .outcome .exn

/-- Oracle answering every fetch with an empty positions list. -/
def envAllZero : Env := envOf fun _ => 0

/-- Oracle answering every fetch with one open position. -/
def envAllOne : Env := envOf fun _ => 1

/-- Oracle for the worked spec example: A1 and A2 have five open
positions, everyone else none. -/
def envTwoFives : Env :=
  envOf fun cid => if cid = "A1" then 5 else if cid = "A2" then 5 else 0

/-- The three accounts of the worked spec example. -/
def copiersTrio : List Copier :=
  [mkCopier (.str "A1"), mkCopier (.str "A2"), mkCopier (.str "A3")]

/-- A stored summary used in cache scenarios. -/
def summary0 : Summary := ⟨[], 0, 0, false, 100⟩

/-- A cache holding one entry for profile p generated at time 100. -/
def cache0 : Cache := [("p", ⟨100, summary0⟩)]

/-- Oracle where the fetch for account C times out and all others return
one open position. -/
def envFailC : Env :=
  fun c => if c = "C" then .outcome .exn else .outcome (.resp 200 (.jsonList 1))

/-- The same oracle with account C answering an empty list instead. -/
def envFixC : Env :=
  fun c =>
    if c = "C" then .outcome (.resp 200 (.jsonList 0))
    else .outcome (.resp 200 (.jsonList 1))

/-- An account record with no id key at all. -/
def noIdCopier : Copier := ⟨Option.none, Option.none, Option.none, Option.none⟩

/-! ### Claims -/

/-- C1: a call that finds a cache entry for the profile aged strictly
less than the TTL returns the stored summary flagged cached, leaves the
cache untouched and fetches nothing; a call that finds the entry at age
at least the TTL (in particular at T+TTL+1) instead recomputes along the
fresh path, returning a summary flagged not-cached and stamped now. -/
theorem ttl_hit_returns_cached_and_stale_recomputes (cache : Cache)
    (now : Int) (env : Env) (pid : String) (l : List Copier) (e : CacheEntry)
    (hfound : pyDictGet cache pid = some e) :
    (now - e.timestamp < OPEN_POSITIONS_CACHE_TTL →
      getOpenPositionsSummaryForProfile cache now env pid l =
        ⟨{ e.data with cached := true }, cache, []⟩) ∧
    (OPEN_POSITIONS_CACHE_TTL ≤ now - e.timestamp →
      getOpenPositionsSummaryForProfile cache now env pid l =
        freshPath cache now env pid l ∧
      (getOpenPositionsSummaryForProfile cache now env pid l).result.cached = false ∧
      (getOpenPositionsSummaryForProfile cache now env pid l).result.timestamp = now) := by
  constructor
  · intro h
    unfold getOpenPositionsSummaryForProfile
    rw [hfound]
    simp [h]
  · intro h
    have h2 : ¬ now - e.timestamp < OPEN_POSITIONS_CACHE_TTL := not_lt.mpr h
    have hfr : getOpenPositionsSummaryForProfile cache now env pid l =
        freshPath cache now env pid l := by
      unfold getOpenPositionsSummaryForProfile
      rw [hfound]
      simp [h2]
    refine ⟨hfr, ?_, ?_⟩
    · rw [hfr]; exact (freshPath_result_flags cache now env pid l).1
    · rw [hfr]; exact (freshPath_result_flags cache now env pid l).2

theorem ttl_hit_returns_cached_and_stale_recomputes_witness :
    getOpenPositionsSummaryForProfile cache0 114 envTimeout "p" [] =
      ⟨{ summary0 with cached := true }, cache0, []⟩ ∧
    (getOpenPositionsSummaryForProfile cache0 116 envTimeout "p" []).result.cached
      = false := by
  constructor
  · exact (ttl_hit_returns_cached_and_stale_recomputes cache0 114 envTimeout "p" []
      ⟨100, summary0⟩ (by decide)).1 (by decide)
  · exact ((ttl_hit_returns_cached_and_stale_recomputes cache0 116 envTimeout "p" []
      ⟨100, summary0⟩ (by decide)).2 (by decide)).2.1

/-- C2: a per-account fetch that fails in any listed way (worker
exception, request exception, non-200 status, non-list payload) is
recorded as zero open positions, and the whole aggregation result is
exactly what it would be had that account successfully answered an empty
list: upstream failure never aborts the aggregate, which still covers
the remaining accounts. -/
theorem upstream_failure_absorbed_as_zero (env env2 : Env) (cid : String)
    (hfail : fetchFails (env cid) = true)
    (hsame : ∀ c, c ≠ cid → env2 c = env c)
    (hok : env2 cid = FetchSpec.outcome (.resp 200 (.jsonList 0))) :
    countFor env cid = 0 ∧
    ∀ (cache : Cache) (now : Int) (pid : String) (l : List Copier),
      getOpenPositionsSummaryForProfile cache now env pid l =
        getOpenPositionsSummaryForProfile cache now env2 pid l := by
  refine ⟨countFor_eq_zero_of_fails env cid hfail, ?_⟩
  intro cache now pid l
  apply countFor_congr_result
  intro c
  by_cases h : c = cid
  · subst h
    rw [countFor_eq_zero_of_fails env c hfail]
    simp [countFor, hok, getCopierOpenCount]
  · unfold countFor
    rw [hsame c h]

theorem upstream_failure_absorbed_as_zero_witness :
    countFor envFailC "C" = 0 ∧
    getOpenPositionsSummaryForProfile [] 0 envFailC "p"
        [mkCopier (.str "C"), mkCopier (.str "D")] =
      getOpenPositionsSummaryForProfile [] 0 envFixC "p"
        [mkCopier (.str "C"), mkCopier (.str "D")] :=
  ⟨(upstream_failure_absorbed_as_zero envFailC envFixC "C" (by decide)
      (fun c hc => by simp [envFailC, envFixC, hc]) (by decide)).1,
   (upstream_failure_absorbed_as_zero envFailC envFixC "C" (by decide)
      (fun c hc => by simp [envFailC, envFixC, hc]) (by decide)).2
      [] 0 "p" [mkCopier (.str "C"), mkCopier (.str "D")]⟩

/-- C3: in a fresh computation, an account whose fetched count is zero
contributes no entry to the returned list, and its presence anywhere in
the input changes neither the other accounts' counts nor their
membership (the whole returned summary is unchanged); every entry that
does appear has a positive count. -/
theorem zero_count_account_invisible (cache : Cache) (now : Int) (env : Env)
    (pid : String) (b : Copier) (l1 l2 : List Copier)
    (hb : countFor env b.idStr = 0) :
    (freshPath cache now env pid (l1 ++ b :: l2)).result =
      (freshPath cache now env pid (l1 ++ l2)).result ∧
    ∀ e ∈ (freshPath cache now env pid (l1 ++ b :: l2)).result.copiers_with_positions,
      0 < e.open_count :=
  ⟨freshPath_result_middle cache now env pid b l1 l2 hb,
   freshPath_entries_pos cache now env pid (l1 ++ b :: l2)⟩

theorem zero_count_account_invisible_witness :
    (freshPath [] 0 envTwoFives "p"
        ([mkCopier (.str "A1")] ++ mkCopier (.str "A3") :: [mkCopier (.str "A2")])).result =
      (freshPath [] 0 envTwoFives "p"
        ([mkCopier (.str "A1")] ++ [mkCopier (.str "A2")])).result ∧
    ∀ e ∈ (freshPath [] 0 envTwoFives "p"
        ([mkCopier (.str "A1")] ++ mkCopier (.str "A3") :: [mkCopier (.str "A2")])).result.copiers_with_positions,
      0 < e.open_count :=
  zero_count_account_invisible [] 0 envTwoFives "p" (mkCopier (.str "A3"))
    [mkCopier (.str "A1")] [mkCopier (.str "A2")] (by decide)

/-- C4: for every fresh computation, total_open_positions is the sum of
the fetched counts over all accounts checked and
total_copiers_with_positions is the number of checked accounts with a
strictly positive count; on the worked example with counts 5, 5 and 0
the totals are 10 and 2. -/
theorem fresh_totals_sum_and_positive_count :
    (∀ (cache : Cache) (now : Int) (env : Env) (pid : String) (l : List Copier),
      (freshPath cache now env pid l).result.total_open_positions =
        ((freshPath cache now env pid l).fetched.map (countFor env)).sum ∧
      (freshPath cache now env pid l).result.total_copiers_with_positions =
        ((freshPath cache now env pid l).fetched.filter
          (fun cid => 0 < countFor env cid)).length) ∧
    (freshPath [] 0 envTwoFives "p" copiersTrio).result.total_open_positions = 10 ∧
    (freshPath [] 0 envTwoFives "p" copiersTrio).result.total_copiers_with_positions
      = 2 :=
  ⟨fun cache now env pid l => freshPath_totals cache now env pid l,
   by decide, by decide⟩

/-- C5: the copiers_with_positions list of every freshly computed summary
is sorted by open_count in descending order: each entry's count is at
least that of every later entry. -/
theorem ranked_list_sorted_descending (cache : Cache) (now : Int) (env : Env)
    (pid : String) (l : List Copier) :
    List.Sorted (fun a b : PositionEntry => b.open_count ≤ a.open_count)
      (freshPath cache now env pid l).result.copiers_with_positions := by
  cases hE : l.isEmpty with
  | true => simp [freshPath, hE, List.sorted_nil]
  | false =>
    simp only [freshPath, hE, Bool.false_eq_true, if_false]
    exact List.sorted_insertionSort entryGE (unsortedEntries env (buildInfoMap l))

/-- C6: on a cache miss with an empty accounts list the call returns,
with no fetch issued, the all-zero summary flagged not-cached and stamped
now, stores it in the cache under the profile id, and any later call for
that profile within the TTL window returns it as a cache hit. -/
theorem empty_input_all_zero_summary_cached (cache : Cache) (now : Int)
    (env : Env) (pid : String)
    (hmiss : pyDictGet cache pid = Option.none ∨
      ∃ e, pyDictGet cache pid = some e ∧
        OPEN_POSITIONS_CACHE_TTL ≤ now - e.timestamp) :
    getOpenPositionsSummaryForProfile cache now env pid [] =
      ⟨⟨[], 0, 0, false, now⟩,
        pyDictSet cache pid ⟨now, ⟨[], 0, 0, false, now⟩⟩, []⟩ ∧
    pyDictGet (pyDictSet cache pid ⟨now, ⟨[], 0, 0, false, now⟩⟩) pid =
      some ⟨now, ⟨[], 0, 0, false, now⟩⟩ ∧
    ∀ (now2 : Int) (env2 : Env) (l2 : List Copier),
      now2 - now < OPEN_POSITIONS_CACHE_TTL →
        getOpenPositionsSummaryForProfile
            (pyDictSet cache pid ⟨now, ⟨[], 0, 0, false, now⟩⟩) now2 env2 pid l2 =
          ⟨⟨[], 0, 0, true, now⟩,
            pyDictSet cache pid ⟨now, ⟨[], 0, 0, false, now⟩⟩, []⟩ := by
  have hfresh : getOpenPositionsSummaryForProfile cache now env pid [] =
      freshPath cache now env pid [] := by
    rcases hmiss with h | ⟨e, he, hstale⟩
    · unfold getOpenPositionsSummaryForProfile
      rw [h]
    · unfold getOpenPositionsSummaryForProfile
      rw [he]
      simp [not_lt.mpr hstale]
  refine ⟨?_, pyDictGet_pyDictSet_self _ _ _, ?_⟩
  · rw [hfresh]
    simp [freshPath]
  · intro now2 env2 l2 h2
    unfold getOpenPositionsSummaryForProfile
    rw [pyDictGet_pyDictSet_self]
    simp [h2]

theorem empty_input_all_zero_summary_cached_witness :
    getOpenPositionsSummaryForProfile [] 0 envTimeout "p" [] =
      ⟨⟨[], 0, 0, false, 0⟩, pyDictSet [] "p" ⟨0, ⟨[], 0, 0, false, 0⟩⟩, []⟩ ∧
    getOpenPositionsSummaryForProfile
        (pyDictSet [] "p" ⟨0, ⟨[], 0, 0, false, 0⟩⟩) 14 envTimeout "p" [] =
      ⟨⟨[], 0, 0, true, 0⟩, pyDictSet [] "p" ⟨0, ⟨[], 0, 0, false, 0⟩⟩, []⟩ :=
  ⟨(empty_input_all_zero_summary_cached [] 0 envTimeout "p" (Or.inl rfl)).1,
   (empty_input_all_zero_summary_cached [] 0 envTimeout "p" (Or.inl rfl)).2.2
     14 envTimeout [] (by decide)⟩

/-- C7 counterexample: the claim says the summary's total-accounts figure
counts every account checked; with one checked account whose count is
zero the code reports total_copiers_with_positions = 0 although 1 account
was checked. -/
theorem checked_accounts_figure_cex :
    (freshPath [] 0 envAllZero "p" [mkCopier (.str "A")]).fetched.length = 1 ∧
    (freshPath [] 0 envAllZero "p"
      [mkCopier (.str "A")]).result.total_copiers_with_positions = 0 := by
  decide

/-- C7 amended: zero-count accounts are excluded from the ranked list and
also from total_copiers_with_positions, which counts only checked
accounts with a positive count; zero-count accounts contribute only
their zero to total_open_positions, whose sum ranges over every account
checked. -/
theorem totals_figure_counts_only_positive (cache : Cache) (now : Int)
    (env : Env) (pid : String) (l : List Copier) :
    (freshPath cache now env pid l).result.total_copiers_with_positions =
      ((freshPath cache now env pid l).fetched.filter
        (fun cid => 0 < countFor env cid)).length ∧
    (freshPath cache now env pid l).result.total_open_positions =
      ((freshPath cache now env pid l).fetched.map (countFor env)).sum :=
  ⟨(freshPath_totals cache now env pid l).2,
   (freshPath_totals cache now env pid l).1⟩

/-- C8: a call either leaves the cache exactly as it was (cache hit) or
mutates it only at the profile-id key, overwriting it with the freshly
computed summary stamped now and returned not-cached; keys other than the
profile id are untouched and no key is ever removed. -/
theorem cache_mutation_discipline (cache : Cache) (now : Int) (env : Env)
    (pid : String) (l : List Copier) :
    (∀ k, k ≠ pid →
      pyDictGet (getOpenPositionsSummaryForProfile cache now env pid l).cache k =
        pyDictGet cache k) ∧
    (∀ k, (pyDictGet cache k).isSome →
      (pyDictGet (getOpenPositionsSummaryForProfile cache now env pid l).cache k).isSome) ∧
    ((getOpenPositionsSummaryForProfile cache now env pid l).cache = cache ∨
      (pyDictGet (getOpenPositionsSummaryForProfile cache now env pid l).cache pid =
          some ⟨now, (getOpenPositionsSummaryForProfile cache now env pid l).result⟩ ∧
        (getOpenPositionsSummaryForProfile cache now env pid l).result.cached = false ∧
        (getOpenPositionsSummaryForProfile cache now env pid l).result.timestamp = now)) := by
  rcases call_cases cache now env pid l with ⟨hc, _⟩ | hfresh
  · rw [hc]
    exact ⟨fun k _ => rfl, fun k h => h, Or.inl rfl⟩
  · rw [hfresh, freshPath_cache_eq]
    refine ⟨?_, ?_, Or.inr ⟨?_, (freshPath_result_flags cache now env pid l).1,
      (freshPath_result_flags cache now env pid l).2⟩⟩
    · intro k hk
      exact pyDictGet_pyDictSet_ne _ _ _ _ hk
    · intro k h
      exact pyDictGet_isSome_pyDictSet _ _ _ _ h
    · exact pyDictGet_pyDictSet_self _ _ _

theorem cache_mutation_discipline_witness :
    pyDictGet (getOpenPositionsSummaryForProfile [] 0 envTimeout "p" []).cache "q" =
      pyDictGet ([] : Cache) "q" :=
  (cache_mutation_discipline [] 0 envTimeout "p" []).1 "q" (by decide)

/-- C9: two aggregation calls that both found the profile stale each
store their fully computed summary with one atomic dict assignment;
under every interleaving of their cache actions the final cache holds,
at the profile key, one of the two computed summaries in its entirety
(last writer wins), never a merge of the two. -/
theorem concurrent_stale_last_writer_wins (cache : Cache) (pid : String)
    (now1 now2 : Int) (env1 env2 : Env) (l1 l2 : List Copier)
    (zs : List ThreadAct)
    (hzs : Interleave
      (staleCallActs ⟨now1, (freshPath cache now1 env1 pid l1).result⟩)
      (staleCallActs ⟨now2, (freshPath cache now2 env2 pid l2).result⟩) zs) :
    pyDictGet (runActs pid cache zs) pid =
        some ⟨now1, (freshPath cache now1 env1 pid l1).result⟩ ∨
      pyDictGet (runActs pid cache zs) pid =
        some ⟨now2, (freshPath cache now2 env2 pid l2).result⟩ :=
  interleave_two_stale_writes cache pid _ _ zs hzs

theorem concurrent_stale_last_writer_wins_witness :
    pyDictGet (runActs "p" ([] : Cache)
        [ThreadAct.read,
         ThreadAct.write ⟨0, (freshPath [] 0 envTimeout "p" []).result⟩,
         ThreadAct.read,
         ThreadAct.write ⟨1, (freshPath [] 1 envTimeout "p" []).result⟩]) "p" =
      some ⟨0, (freshPath [] 0 envTimeout "p" []).result⟩ ∨
    pyDictGet (runActs "p" ([] : Cache)
        [ThreadAct.read,
         ThreadAct.write ⟨0, (freshPath [] 0 envTimeout "p" []).result⟩,
         ThreadAct.read,
         ThreadAct.write ⟨1, (freshPath [] 1 envTimeout "p" []).result⟩]) "p" =
      some ⟨1, (freshPath [] 1 envTimeout "p" []).result⟩ :=
  concurrent_stale_last_writer_wins [] "p" 0 1 envTimeout envTimeout [] [] _
    (Interleave.left (Interleave.left (Interleave.right (Interleave.right
      Interleave.nil))))

/-- C10 counterexample: the claim says an account whose id field is None
is excluded; in the code str(None) is the non-empty text "None", so the
account IS fetched under that id and does contribute to the totals. -/
theorem none_id_included_cex :
    (freshPath [] 0 envAllOne "p" [mkCopier PyVal.none]).fetched = ["None"] ∧
    (freshPath [] 0 envAllOne "p"
      [mkCopier PyVal.none]).result.total_open_positions = 1 ∧
    (freshPath [] 0 envAllOne "p"
      [mkCopier PyVal.none]).result.total_copiers_with_positions = 1 := by
  decide

/-- C10 amended: an account whose id key is missing or whose id
stringifies to the empty string is excluded from the aggregation
entirely — the whole call result (fetches, entries, totals, cache) is as
if it were absent — and every id actually checked is non-empty; an id of
None, by contrast, stringifies to "None" and is treated as an ordinary
account. -/
theorem empty_or_missing_id_excluded (cache : Cache) (now : Int) (env : Env)
    (pid : String) (b : Copier) (l1 l2 : List Copier) (h0 : b.idStr = "") :
    freshPath cache now env pid (l1 ++ b :: l2) =
      freshPath cache now env pid (l1 ++ l2) ∧
    ∀ cid ∈ (freshPath cache now env pid (l1 ++ b :: l2)).fetched, cid ≠ "" :=
  ⟨freshPath_middle_emptyId cache now env pid b l1 l2 h0,
   freshPath_fetched_ne_empty cache now env pid (l1 ++ b :: l2)⟩

theorem empty_or_missing_id_excluded_witness :
    freshPath [] 0 envAllOne "p"
        ([mkCopier (.str "A")] ++ noIdCopier :: [mkCopier (.str "B")]) =
      freshPath [] 0 envAllOne "p" ([mkCopier (.str "A")] ++ [mkCopier (.str "B")]) ∧
    ∀ cid ∈ (freshPath [] 0 envAllOne "p"
        ([mkCopier (.str "A")] ++ noIdCopier :: [mkCopier (.str "B")])).fetched,
      cid ≠ "" :=
  empty_or_missing_id_excluded [] 0 envAllOne "p" noIdCopier
    [mkCopier (.str "A")] [mkCopier (.str "B")] (by decide)

end SignalWeb
